import Mathlib

/-!
# Verification of `overdrive2opus`

A shallow embedding of the metadata-aggregation and pipeline-construction
core of `src/overdrive2opus.py`, together with proofs settling the claims
of the specification against it.

Modelling conventions:
* Python floats are modelled as rationals (`ℚ`).
* Python `None` becomes `Option.none`; an uncaught exception of a helper
  becomes `Option.none` / `Except.error` of the embedded function.
* Strings are Lean `String`s; whitespace and digit classes are the ASCII
  classes used by the source's regexes.
-/

namespace Overdrive2Opus

/-- ASCII whitespace, the fragment of Python's `str.isspace` / regex `\s`
class exercised by the source (space, tab, newline, carriage return,
vertical tab, form feed). -/
def pyIsSpace (c : Char) : Bool :=
  c == ' ' || c == '\t' || c == '\n' || c == '\r' || c == '\x0b' || c == '\x0c'

/-- Value of a list of ASCII digit characters, most significant first. -/
def digitsToNat (ds : List Char) : Nat :=
  ds.foldl (fun acc c => 10 * acc + (c.toNat - '0'.toNat)) 0

/-- Python `str.split(sep)` for a one-character separator: split at every
occurrence, keeping empty pieces (`''.split(':') == ['']`). -/
def splitOnChar (sep : Char) : List Char → List (List Char)
  | [] => [[]]
  | c :: cs =>
    if c = sep then [] :: splitOnChar sep cs
    else
      match splitOnChar sep cs with
      | [] => [[c]]
      | g :: gs => (c :: g) :: gs

/-- Model of Python `float(s)` restricted to the decimal literals the
source feeds it: an optional run of digits, an optional dot, an optional
run of digits, with at least one digit overall.  Returns `none` where
Python's `float` raises `ValueError`. -/
def parseDecimal (s : String) : Option ℚ :=
  match splitOnChar '.' s.toList with
  | [ds] =>
    if ds ≠ [] ∧ ds.all Char.isDigit then some (digitsToNat ds) else none
  | [ds, fs] =>
    if (ds ≠ [] ∨ fs ≠ []) ∧ ds.all Char.isDigit ∧ fs.all Char.isDigit then
      some ((digitsToNat ds : ℚ) + (digitsToNat fs : ℚ) / (10 : ℚ) ^ fs.length)
    else none
  | _ => none

/-- Model of Python `int(s)`: optional surrounding whitespace, optional
sign, a non-empty run of digits.  `none` where Python raises. -/
def pyIntCore (s : String) : Option Int :=
  let cs := (((s.toList.dropWhile pyIsSpace).reverse).dropWhile pyIsSpace).reverse
  match cs with
  | '-' :: ds => if ds ≠ [] ∧ ds.all Char.isDigit then some (-(digitsToNat ds : Int)) else none
  | '+' :: ds => if ds ≠ [] ∧ ds.all Char.isDigit then some (digitsToNat ds : Int) else none
  | ds => if ds ≠ [] ∧ ds.all Char.isDigit then some (digitsToNat ds : Int) else none

/-- Embeds `_int` (src line 113): `int(s)` with `TypeError`/`ValueError`
mapped to `None`; the argument is `t.get('track')`, an optional string. -/
def pyIntOpt : Option String → Option Int
  | none => none
  | some s => pyIntCore s

/-- Embeds `_ts_from_time` (src line 85): split on `:`, fold
`ret = ret * 60 + float(n)` left to right.  `none` when a component is not
a parseable float (Python: uncaught `ValueError`). -/
def tsFromTime (s : String) : Option ℚ :=
  ((splitOnChar ':' s.toList).map (fun cs => String.mk cs)).foldlM
    (fun r n => (parseDecimal n).map (fun v => r * 60 + v)) (0 : ℚ)

/-! ## The `OverDrive MediaMarkers` XML payload

`get_metadata` iterates over the direct children of the XML root and, for a
`Marker` child, over that child's own children, reading only `tag` and
`text`.  The two levels it touches are modelled explicitly. -/

/-- A sub-element of a `Marker` element: only its tag and text are read. -/
structure XLeaf where
  tag : String
  text : Option String
deriving DecidableEq

/-- A direct child of the XML root. -/
structure XElem where
  tag : String
  children : List XLeaf
deriving DecidableEq

/-- Embeds the inner loop of `get_metadata` (src lines 165-171): starting
from the defaults `name = 'Unknown name'`, `time = 0`, each `Name` child
with non-`None` text overwrites the name and each `Time` child with
non-`None` text overwrites the time with `_ts_from_time(text)`.  `none`
models the uncaught `ValueError` that `_ts_from_time` raises on a
malformed time string. -/
def markerFold : String × ℚ → List XLeaf → Option (String × ℚ)
  | st, [] => some st
  | (nm, tm), c :: cs =>
    let nm' := match c.text with
      | some t => if c.tag = "Name" then t else nm
      | none => nm
    match c.text with
    | some t =>
      if c.tag = "Time" then
        match tsFromTime t with
        | some v => markerFold (nm', v) cs
        | none => none
      else markerFold (nm', tm) cs
    | none => markerFold (nm', tm) cs

/-- Embeds the outer loop of `get_metadata` (src lines 163-176): a child
tagged `Marker` contributes one `(name, time)` pair via `markerFold`; any
other child is logged and skipped.  `none` models an uncaught exception. -/
def parseMarkers : List XElem → Option (List (String × ℚ))
  | [] => some []
  | e :: es =>
    if e.tag = "Marker" then
      match markerFold ("Unknown name", 0) e.children with
      | some ch => (parseMarkers es).map (ch :: ·)
      | none => none
    else parseMarkers es

/-! ## Track-number resolution (src lines 135-152) -/

/-- Tries to match the regex `-\s*Part\s*(\d+)` (case-insensitive) at the
head of the character list, returning the value of the greedy digit
group. -/
def matchPartAt : List Char → Option Nat
  | '-' :: rest =>
    match rest.dropWhile pyIsSpace with
    | p :: a :: r :: t :: r2 =>
      if p.toLower = 'p' ∧ a.toLower = 'a' ∧ r.toLower = 'r' ∧ t.toLower = 't' then
        let ds := (r2.dropWhile pyIsSpace).takeWhile Char.isDigit
        if ds ≠ [] then some (digitsToNat ds) else none
      else none
    | _ => none
  | _ => none

/-- Embeds `re.search(r'-\s*Part\s*(\d+)', title, re.IGNORECASE)`:
leftmost match wins. -/
def searchPart : List Char → Option Nat
  | [] => none
  | c :: rest =>
    match matchPartAt (c :: rest) with
    | some n => some n
    | none => searchPart rest

/-- The two fatal errors of track resolution: `KeyError("No title. Can't
determine track")` and `LookupError('No track information')`. -/
inductive TrackErr where
  | noTitle
  | noTrack
deriving DecidableEq

/-- Embeds src lines 135-152: `track = _int(t.get('track'))`; when that is
`None`, fall back to the title — a missing title is `KeyError`, a title
without the `- Part N` pattern is `LookupError`, otherwise the matched
number. -/
def resolveTrack (tag : Option String) (title : Option String) : Except TrackErr Int :=
  match pyIntOpt tag with
  | some t => .ok t
  | none =>
    match title with
    | none => .error .noTitle
    | some ti =>
      match searchPart ti.toList with
      | some n => .ok (n : Int)
      | none => .error .noTrack

/-! ## Per-track records and folder-level aggregation
(`get_metadata` result dict, `get_folder_metadata`, src lines 120-243) -/

/-- The fields of the per-track dict built by `get_metadata` that the
aggregation reads.  Descriptive tags are optional strings (`t.get(k,
None)` after entity unescaping); `track` is the resolved track number;
`duration` is `float(d['duration'])`; `chapters` the parsed marker
list. -/
structure TrackMeta where
  title : Option String
  artist : Option String
  genre : Option String
  publisher : Option String
  comment : Option String
  album : Option String
  copyright : Option String
  track : Int
  duration : ℚ
  chapters : List (String × ℚ)
deriving DecidableEq

/-- Insertion step of a stable sort by ascending `track`, mirroring
`files_meta.sort(key=lambda f: int(f['track']))` (src line 198): an
element is placed before the first element whose track number is not
smaller, so equal keys keep their original relative order, as Python's
stable sort guarantees. -/
def insertTrack (a : TrackMeta) : List TrackMeta → List TrackMeta
  | [] => [a]
  | b :: l => if b.track < a.track then b :: insertTrack a l else a :: b :: l

/-- Stable sort of the track records by track number (src line 198). -/
def sortTracks : List TrackMeta → List TrackMeta
  | [] => []
  | a :: l => insertTrack a (sortTracks l)

/-- Embeds the merge loop of `get_folder_metadata` (src lines 202-209):
state `(chapters, delta)`; each track appends its chapter markers shifted
by the running offset `delta`, then adds its duration to `delta`. -/
def aggStep (acc : List (String × ℚ) × ℚ) (f : TrackMeta) : List (String × ℚ) × ℚ :=
  (acc.1 ++ f.chapters.map (fun ch => (ch.1, ch.2 + acc.2)), acc.2 + f.duration)

/-- The merged chapter list and total duration for an (already sorted)
track list, starting from `chapters = []`, `delta = 0`. -/
def aggregate (files : List TrackMeta) : List (String × ℚ) × ℚ :=
  files.foldl aggStep ([], 0)

/-- `ret['chapters']` of `get_folder_metadata` (src line 212): merge over
the track list sorted by track number. -/
def folderChapters (files : List TrackMeta) : List (String × ℚ) :=
  (aggregate (sortTracks files)).1

/-- `ret['duration']` of `get_folder_metadata` (src line 213): the final
running offset. -/
def folderDuration (files : List TrackMeta) : ℚ :=
  (aggregate (sortTracks files)).2

/-! ## Field resolution (`_get_field`, src lines 217-224) -/

/-- Embeds `_get_field`: scan the sorted track records and return the
first value that is not `None`; otherwise the sentinel `'Unknown'`.  The
field is abstracted as a selector into the track record. -/
def getFieldMeta (field : TrackMeta → Option String) : List TrackMeta → String
  | [] => "Unknown"
  | f :: fs =>
    match field f with
    | some v => v
    | none => getFieldMeta field fs

/-- Modelled from the spec (§4.3): "scan tracks in sorted order and return
the first non-empty value; absence of any value yields a sentinel
`'Unknown'`" — the spec's resolver skips empty strings, for comparison
with `getFieldMeta`. -/
def getFieldSpec (field : TrackMeta → Option String) : List TrackMeta → String
  | [] => "Unknown"
  | f :: fs =>
    match field f with
    | some v => if v = "" then getFieldSpec field fs else v
    | none => getFieldSpec field fs

/-! ## Chapter filtering and the encode plan (`encode`, src lines 246-444) -/

/-- Embeds src line 311: `len(name) and name[0].isspace()`. -/
def startsWithSpace (s : String) : Bool :=
  match s.toList with
  | [] => false
  | c :: _ => pyIsSpace c

/-- Embeds `re.search(r'\s+\([0-9:]+\)\s*$', name)` (src line 314): the
name ends with optional whitespace, preceded by `)`, preceded by a
non-empty run of `[0-9:]`, preceded by `(`, preceded by at least one
whitespace character.  Since `(` is neither a digit nor `:` and no digit
is whitespace, this reversed scan is the unique way the pattern can match
ending at the end of the string. -/
def hasTimestampSuffix (s : String) : Bool :=
  match (s.toList.reverse).dropWhile pyIsSpace with
  | ')' :: r1 =>
    let ds := r1.takeWhile (fun c => c.isDigit || c == ':')
    match r1.dropWhile (fun c => c.isDigit || c == ':') with
    | '(' :: r3 =>
      (!ds.isEmpty) &&
        (match r3 with
         | c :: _ => pyIsSpace c
         | [] => false)
    | _ => false
  | _ => false

/-- The two name-only suppression tests of src lines 311-314 (leading
whitespace, trailing parenthesized timestamp). -/
def isSubName (s : String) : Bool :=
  startsWithSpace s || hasTimestampSuffix s

/-- Embeds the suppression logic of the chapter loop (src lines 306-329)
without numbering/scaling: with subchapters disabled, a chapter is dropped
when its name is a subchapter name or equals the name of the previous
*kept* chapter (`prev_name`); a kept chapter updates `prev_name`. -/
def filterChapters (subch : Bool) : Option String → List (String × ℚ) → List (String × ℚ)
  | _, [] => []
  | prev, ch :: rest =>
    if !subch && isSubName ch.1 then filterChapters subch prev rest
    else if !subch && prev = some ch.1 then filterChapters subch prev rest
    else ch :: filterChapters subch (some ch.1) rest

/-- Embeds the full chapter loop of `encode` (src lines 306-329): the
suppression tests of `filterChapters` plus the increment of `chapter_n`
and the time scaling `time / speed_float` applied to each emitted
chapter comment pair.  Each kept chapter yields
`(chapter_n, name, time / speedFloat)`, the data carried by its
`CHAPTERnn=` and `CHAPTERnnNAME=` comments. -/
def chapterLoop (subch : Bool) (f : ℚ) : Nat → Option String → List (String × ℚ) →
    List (Nat × String × ℚ)
  | _, _, [] => []
  | n, prev, ch :: rest =>
    if !subch && isSubName ch.1 then chapterLoop subch f n prev rest
    else if !subch && prev = some ch.1 then chapterLoop subch f n prev rest
    else (n + 1, ch.1, ch.2 / f) :: chapterLoop subch f (n + 1) (some ch.1) rest

/-- Embeds src lines 257-259: `if speed < -99: speed = -50` (the warning
text says "truncating to -99%", but the assignment writes `-50`). -/
def clampSpeed (speed : Int) : Int :=
  if speed < -99 then -50 else speed

/-- `speed_float = 1 + speed / 100.0` (src line 260), computed from the
clamped speed. -/
def speedFloat (speed : Int) : ℚ :=
  1 + (clampSpeed speed : ℚ) / 100

/-- `encode` raises a bare `FileNotFoundError` (the spec's `NoInputError`)
when no mp3 files were found (src lines 271-273). -/
inductive EncodeErr where
  | noInputError
deriving DecidableEq

/-- The outputs of one `encode` call that the claims inspect: the chapter
comment data, the optional `atempo` filter factor, and the progress-bar
total. -/
structure EncodePlan where
  chapters : List (Nat × String × ℚ)
  atempo : Option ℚ
  progressTotal : ℚ
deriving DecidableEq

/-- Embeds the control flow of `encode` (src lines 246-421) at the
granularity the claims need: clamp the speed and form `speed_float`;
aggregate the folder metadata; fail with `FileNotFoundError` when the
track list is empty — before any subprocess command line is realised;
otherwise build the chapter comments (src lines 306-329), add the
`atempo=speed_float` filter stage exactly when the clamped speed is
non-zero (src lines 376-378), and set the progress total to
`duration / speed_float` (src line 419). -/
def encodeModel (files : List TrackMeta) (subch : Bool) (speed : Int) :
    Except EncodeErr EncodePlan :=
  let f := speedFloat speed
  let sorted := sortTracks files
  if sorted.length = 0 then .error .noInputError
  else
    .ok
      { chapters := chapterLoop subch f 0 none (aggregate sorted).1
        atempo := if clampSpeed speed ≠ 0 then some f else none
        progressTotal := (aggregate sorted).2 / f }

/-! ## Helper lemmas -/

theorem foldl_aggStep_snd (l : List TrackMeta) (acc : List (String × ℚ) × ℚ) :
    (l.foldl aggStep acc).2 = acc.2 + (l.map (fun f => f.duration)).sum := by
  induction l generalizing acc with
  | nil => simp
  | cons f rest ih => simp [aggStep, ih]; ring

theorem insertTrack_perm (a : TrackMeta) (l : List TrackMeta) :
    (insertTrack a l).Perm (a :: l) := by
  induction l with
  | nil => simp [insertTrack]
  | cons b rest ih =>
    by_cases h : b.track < a.track
    · simpa [insertTrack, h] using (ih.cons b).trans (List.Perm.swap a b rest)
    · simp [insertTrack, h]

theorem sortTracks_perm (l : List TrackMeta) : (sortTracks l).Perm l := by
  induction l with
  | nil => simp [sortTracks]
  | cons a rest ih => exact (insertTrack_perm a (sortTracks rest)).trans (ih.cons a)

theorem filterChapters_filterChapters (subch : Bool) (prev : Option String)
    (l : List (String × ℚ)) :
    filterChapters subch prev (filterChapters subch prev l) =
      filterChapters subch prev l := by
  induction l generalizing prev with
  | nil => simp [filterChapters]
  | cons ch rest ih =>
    by_cases h1 : !subch && isSubName ch.1
    · simp [filterChapters, h1, ih]
    · by_cases h2 : !subch && prev = some ch.1
      · simp [filterChapters, h1, h2, ih]
      · simp [filterChapters, h1, h2, ih]

/-! ## Claim theorems -/

/-- C9: for every track list, the `duration` field of the aggregated
folder metadata equals the sum of the `duration` fields of all its track
records — the final value of the running offset after the last track. -/
theorem folderDuration_eq_sum_durations (files : List TrackMeta) :
    folderDuration files = (files.map (fun f => f.duration)).sum := by
  have hperm := (sortTracks_perm files).map (fun f => f.duration)
  simp [folderDuration, aggregate, foldl_aggStep_snd, hperm.sum_eq]

/-- C8: with zero recognized track files, `encode` fails with the
no-input error (`FileNotFoundError`, the spec's `NoInputError`) and
produces no pipeline plan at all — in particular neither the decode/filter
command nor the encode command is realised, so no external process can be
spawned. -/
theorem encodeModel_empty_noInput (subch : Bool) (speed : Int) :
    encodeModel [] subch speed = .error EncodeErr.noInputError := rfl

/-- C3 (code bug): the source's own warning says "truncating to -99%",
but the assignment writes `-50`: a speed of `-150` is coerced to `-50`,
not to the floor `-99`.  The second half of the claim does hold: the
resulting `speed_float` is strictly positive for every input speed. -/
theorem clampSpeed_writes_minus_fifty :
    clampSpeed (-150) = -50 ∧ clampSpeed (-150) ≠ -99 ∧ ∀ s : Int, 0 < speedFloat s := by
  refine ⟨by norm_num [clampSpeed], by norm_num [clampSpeed], fun s => ?_⟩
  unfold speedFloat clampSpeed
  by_cases h : s < -99
  · simp [h]; norm_num
  · simp only [h, if_false]
    have h99 : (-99 : ℚ) ≤ (s : Int) := by exact_mod_cast not_lt.mp h
    have : (-99 : ℚ) / 100 ≤ (s : ℚ) / 100 := by
      apply div_le_div_of_nonneg_right h99
      norm_num
    linarith

/-- C7: the subchapter suppression pass is idempotent, for either setting
of the `subchapters` switch: run a second time on its own output, with the
same settings and a fresh `prev_name`, it removes nothing further. -/
theorem filterChapters_idempotent (subch : Bool) (l : List (String × ℚ)) :
    filterChapters subch none (filterChapters subch none l) =
      filterChapters subch none l :=
  filterChapters_filterChapters subch none l

/-- C5 (amended): `_get_field` scans the track records in order and
returns the first value that is present (not `None`) — even when that
value is the empty string — and the sentinel `'Unknown'` exactly when
every track lacks the field. -/
theorem getFieldMeta_eq_findSome (field : TrackMeta → Option String) (ts : List TrackMeta) :
    getFieldMeta field ts = (ts.findSome? field).getD "Unknown" := by
  induction ts with
  | nil => simp [getFieldMeta]
  | cons t rest ih =>
    cases h : field t <;> simp [getFieldMeta, List.findSome?_cons, h, ih]

/-- A track whose `artist` tag is present but is the empty string. -/
def emptyArtistTrack : TrackMeta :=
  { title := none, artist := some "", genre := none, publisher := none,
    comment := none, album := none, copyright := none,
    track := 1, duration := 1, chapters := [] }

/-- A track whose `artist` tag is the non-empty string `"Bob"`. -/
def namedArtistTrack : TrackMeta :=
  { title := none, artist := some "Bob", genre := none, publisher := none,
    comment := none, album := none, copyright := none,
    track := 2, duration := 1, chapters := [] }

/-- C5 (counterexample): on a track list whose first record carries the
empty string as its `artist` tag, `_get_field` returns that empty string,
while the spec's first-non-empty resolver (`getFieldSpec`) would return
the later `"Bob"` — the code selects by presence (`is not None`), not by
non-emptiness. -/
theorem getFieldMeta_returns_empty_string :
    getFieldMeta (fun t => t.artist) [emptyArtistTrack, namedArtistTrack] = "" ∧
      getFieldSpec (fun t => t.artist) [emptyArtistTrack, namedArtistTrack] = "Bob" ∧
      ("" : String) ≠ "Bob" := by
  refine ⟨rfl, rfl, by decide⟩

/-- C10: when the explicit track tag is present but not parseable as an
integer, `_int` yields `None` and resolution proceeds exactly as if the
tag were absent: the title's `- Part N` pattern decides the track, the
`LookupError` (`noTrack`) is raised only when the title fails to match,
and the `KeyError` (`noTitle`) is raised when there is no title at all. -/
theorem resolveTrack_bad_tag_falls_back (s : String) (title : Option String)
    (h : pyIntCore s = none) :
    resolveTrack (some s) title = resolveTrack none title ∧
      (title = none → resolveTrack (some s) title = .error TrackErr.noTitle) ∧
      (∀ ti n, title = some ti → searchPart ti.toList = some n →
        resolveTrack (some s) title = .ok (n : Int)) ∧
      (∀ ti, title = some ti → searchPart ti.toList = none →
        resolveTrack (some s) title = .error TrackErr.noTrack) := by
  refine ⟨by simp [resolveTrack, pyIntOpt, h], ?_, ?_, ?_⟩
  · rintro rfl
    simp [resolveTrack, pyIntOpt, h]
  · rintro ti n rfl hm
    simp only [String.toList] at hm
    simp [resolveTrack, pyIntOpt, h, hm]
  · rintro ti rfl hm
    simp only [String.toList] at hm
    simp [resolveTrack, pyIntOpt, h, hm]

/-- C10 witness: the tag `"3rd"` is not an integer, so the track number
comes from the title `"My Book - Part 3"`, giving track 3. -/
theorem resolveTrack_bad_tag_falls_back_witness :
    pyIntCore "3rd" = none ∧
      resolveTrack (some "3rd") (some "My Book - Part 3") = .ok (3 : Int) :=
  ⟨rfl, (resolveTrack_bad_tag_falls_back "3rd" (some "My Book - Part 3") rfl).2.2.1
    "My Book - Part 3" 3 rfl rfl⟩

/-- A scenario-A track: duration 600 s, one chapter named `"Chapter"` at
time 0, with the given track number. -/
def scenarioTrack (n : Int) : TrackMeta :=
  { title := none, artist := none, genre := none, publisher := none,
    comment := none, album := none, copyright := none,
    track := n, duration := 600, chapters := [("Chapter", 0)] }

/-- C2: three 600 s tracks with track numbers {2,1,3}, each carrying one
chapter `"Chapter"` at time 0: aggregation sorts by track number and
offsets the chapters to 0, 600 and 1200; with subchapters disabled the
second and third are suppressed as consecutive duplicates of the
previously kept name, so the encode plan carries exactly
`(1, "Chapter", 0)`. -/
theorem scenarioA_merge_and_filter :
    folderChapters [scenarioTrack 2, scenarioTrack 1, scenarioTrack 3] =
      [("Chapter", 0), ("Chapter", 600), ("Chapter", 1200)] ∧
      encodeModel [scenarioTrack 2, scenarioTrack 1, scenarioTrack 3] false 0 =
        .ok { chapters := [(1, "Chapter", 0)], atempo := none, progressTotal := 1800 } := by
  constructor
  · norm_num [folderChapters, aggregate, aggStep, sortTracks, insertTrack, scenarioTrack]
  · simp +decide [encodeModel, aggregate, aggStep, sortTracks, insertTrack, scenarioTrack,
      chapterLoop, isSubName, startsWithSpace, hasTimestampSuffix, pyIsSpace, speedFloat,
      clampSpeed]
    norm_num

/-- C4 (counterexample): a `Marker` element missing its `Name` and `Time`
sub-elements is not skipped — it contributes a chapter marker with the
defaults `('Unknown name', 0)`; and a `Marker` whose `Time` text is not a
parseable float aborts the run (uncaught `ValueError` inside
`_ts_from_time`), modelled here as `none`. -/
theorem parseMarkers_default_and_abort :
    parseMarkers [{ tag := "Marker", children := [] }] = some [("Unknown name", 0)] ∧
      parseMarkers
          [{ tag := "Marker", children := [{ tag := "Time", text := some "abc" }] }] =
        none := by
  constructor
  · rfl
  · simp +decide [parseMarkers, markerFold, tsFromTime, splitOnChar, parseDecimal,
      String.toList]

theorem markerFold_isSome (children : List XLeaf)
    (h : ∀ c ∈ children, c.tag = "Time" → c.text.all (fun t => (tsFromTime t).isSome)) :
    ∀ st : String × ℚ, (markerFold st children).isSome := by
  induction children with
  | nil => intro st; simp [markerFold]
  | cons c cs ih =>
    intro st
    obtain ⟨nm, tm⟩ := st
    have hcs := fun d hd => h d (List.mem_cons_of_mem c hd)
    cases htext : c.text with
    | none => simpa [markerFold, htext] using ih hcs _
    | some t =>
      by_cases htag : c.tag = "Time"
      · have := h c (List.mem_cons_self c cs) htag
        rw [htext] at this
        simp only [Option.all_some] at this
        obtain ⟨v, hv⟩ := Option.isSome_iff_exists.mp this
        simpa [markerFold, htext, htag, hv] using ih hcs _
      · simpa [markerFold, htext, htag] using ih hcs _

/-- C4 (amended): marker parsing never aborts as long as every `Time`
sub-element of a `Marker` carries parseable text; elements whose tag is
not `Marker` are logged and skipped; and every `Marker` element —
malformed or not, in particular one missing its `Name` or `Time`
sub-element — contributes exactly one chapter marker (defaults
`'Unknown name'`, time 0 filling the gaps), so the chapter count equals
the number of `Marker` elements. -/
theorem parseMarkers_total_when_times_parse (es : List XElem)
    (h : ∀ e ∈ es, e.tag = "Marker" →
      ∀ c ∈ e.children, c.tag = "Time" → c.text.all (fun t => (tsFromTime t).isSome)) :
    ∃ cs, parseMarkers es = some cs ∧
      cs.length = (es.filter (fun e => e.tag = "Marker")).length := by
  induction es with
  | nil => exact ⟨[], rfl, rfl⟩
  | cons e es ih =>
    obtain ⟨cs, hcs, hlen⟩ := ih (fun d hd => h d (List.mem_cons_of_mem e hd))
    by_cases htag : e.tag = "Marker"
    · have hsome := markerFold_isSome e.children
        (h e (List.mem_cons_self e es) htag) ("Unknown name", 0)
      obtain ⟨ch, hch⟩ := Option.isSome_iff_exists.mp hsome
      exact ⟨ch :: cs, by simp [parseMarkers, htag, hch, hcs],
        by simp [htag, hlen]⟩
    · exact ⟨cs, by simp [parseMarkers, htag, hcs], by simp [htag, hlen]⟩

/-- C4 witness for the amended theorem: a well-formed marker list with
one `Marker` (name `"Intro"`, time `0:30`) and one stray element parses
to exactly one chapter. -/
theorem parseMarkers_total_witness :
    (∀ e ∈ [XElem.mk "Marker" [XLeaf.mk "Name" (some "Intro"), XLeaf.mk "Time" (some "0:30")],
        XElem.mk "junk" []], e.tag = "Marker" →
      ∀ c ∈ e.children, c.tag = "Time" → c.text.all (fun t => (tsFromTime t).isSome)) ∧
    ∃ cs, parseMarkers [XElem.mk "Marker"
          [XLeaf.mk "Name" (some "Intro"), XLeaf.mk "Time" (some "0:30")],
        XElem.mk "junk" []] = some cs ∧
      cs.length =
        (([XElem.mk "Marker" [XLeaf.mk "Name" (some "Intro"), XLeaf.mk "Time" (some "0:30")],
          XElem.mk "junk" []]).filter (fun e => e.tag = "Marker")).length :=
  ⟨by decide, parseMarkers_total_when_times_parse _ (by decide)⟩

/-- Well-formedness of one track record, as the spec's data model
describes it: a non-negative duration, chapter timestamps that are
non-decreasing within the track, and each chapter timestamp within
`[0, duration]`. -/
def goodTrack (t : TrackMeta) : Prop :=
  0 ≤ t.duration ∧ List.Chain' (· ≤ ·) (t.chapters.map Prod.snd) ∧
    ∀ ch ∈ t.chapters, 0 ≤ ch.2 ∧ ch.2 ≤ t.duration

theorem aggStep_invariant (l : List TrackMeta) (hl : ∀ t ∈ l, goodTrack t) :
    ∀ acc : List (String × ℚ) × ℚ,
      List.Chain' (· ≤ ·) (acc.1.map Prod.snd) →
      (∀ x ∈ acc.1.map Prod.snd, x ≤ acc.2) →
      List.Chain' (· ≤ ·) ((l.foldl aggStep acc).1.map Prod.snd) ∧
        ∀ x ∈ (l.foldl aggStep acc).1.map Prod.snd, x ≤ (l.foldl aggStep acc).2 := by
  induction l with
  | nil => intro acc h1 h2; exact ⟨h1, h2⟩
  | cons f rest ih =>
    intro acc h1 h2
    obtain ⟨hdur, hchain, hbound⟩ := hl f (List.mem_cons_self f rest)
    have hmap : (aggStep acc f).1.map Prod.snd =
        acc.1.map Prod.snd ++ (f.chapters.map Prod.snd).map (· + acc.2) := by
      simp [aggStep, Function.comp]
    refine ih (fun d hd => hl d (List.mem_cons_of_mem f hd)) (aggStep acc f) ?_ ?_
    · rw [hmap, List.chain'_append]
      refine ⟨h1, ?_, ?_⟩
      · exact (List.chain'_map _).mpr (hchain.imp fun a b h => add_le_add_right h acc.2)
      · intro x hx y hy
        have hxa : x ≤ acc.2 := h2 x (List.mem_of_mem_getLast? hx)
        have hymem : y ∈ (f.chapters.map Prod.snd).map (· + acc.2) :=
          List.mem_of_mem_head? hy
        obtain ⟨c, hc, rfl⟩ := List.mem_map.mp hymem
        obtain ⟨ch, hch, rfl⟩ := List.mem_map.mp hc
        have := (hbound ch hch).1
        linarith
    · intro x hx
      rw [hmap] at hx
      rcases List.mem_append.mp hx with hold | hnew
      · have := h2 x hold
        simp only [aggStep]
        linarith
      · obtain ⟨c, hc, rfl⟩ := List.mem_map.mp hnew
        obtain ⟨ch, hch, rfl⟩ := List.mem_map.mp hc
        have := (hbound ch hch).2
        simp only [aggStep]
        linarith

/-- C1 (amended): for every list of track records that are well-formed in
the sense of the spec's data model — non-negative durations, per-track
chapter timestamps non-decreasing and within `[0, duration]` — the merged
global chapter list has non-decreasing timestamps and its last timestamp
is at most the total duration. -/
theorem folderChapters_sorted_and_bounded (files : List TrackMeta)
    (h : ∀ t ∈ files, goodTrack t) :
    List.Chain' (· ≤ ·) ((folderChapters files).map Prod.snd) ∧
      ∀ x ∈ ((folderChapters files).map Prod.snd).getLast?,
        x ≤ folderDuration files := by
  have hsorted : ∀ t ∈ sortTracks files, goodTrack t := fun t ht =>
    h t ((sortTracks_perm files).mem_iff.mp ht)
  obtain ⟨hchain, hbound⟩ :=
    aggStep_invariant (sortTracks files) hsorted ([], 0) (by simp) (by simp)
  exact ⟨hchain, fun x hx =>
    hbound x (List.mem_of_mem_getLast? hx)⟩

/-- A track record that the code accepts but that violates the claimed
invariant: duration 1, chapters `[("A", 5), ("B", 2)]` — the embedded
markers are out of order and beyond the track's duration, and
`get_folder_metadata` does not reorder or bound them. -/
def badTrack : TrackMeta :=
  { title := none, artist := none, genre := none, publisher := none,
    comment := none, album := none, copyright := none,
    track := 1, duration := 1, chapters := [("A", 5), ("B", 2)] }

/-- C1 (counterexample): on `[badTrack]` the merged timestamps are
`[5, 2]` — not non-decreasing — and the last timestamp 2 exceeds the total
duration 1, so the claim as stated (for every non-empty track list) is
false. -/
theorem folderChapters_not_sorted_for_badTrack :
    ¬ (List.Chain' (· ≤ ·) ((folderChapters [badTrack]).map Prod.snd) ∧
        ∀ x ∈ ((folderChapters [badTrack]).map Prod.snd).getLast?,
          x ≤ folderDuration [badTrack]) := by
  have hch : folderChapters [badTrack] = [("A", 5), ("B", 2)] := by
    norm_num [folderChapters, aggregate, aggStep, sortTracks, insertTrack, badTrack]
  rintro ⟨h1, -⟩
  rw [hch] at h1
  norm_num [List.chain'_cons] at h1

/-- C1 witness: a concrete two-track input satisfying the well-formedness
hypotheses, on which the amended theorem yields sorted, bounded merged
chapters. -/
theorem folderChapters_sorted_and_bounded_witness :
    (∀ t ∈ [scenarioTrack 2, scenarioTrack 1], goodTrack t) ∧
      (List.Chain' (· ≤ ·) ((folderChapters [scenarioTrack 2, scenarioTrack 1]).map Prod.snd) ∧
        ∀ x ∈ ((folderChapters [scenarioTrack 2, scenarioTrack 1]).map Prod.snd).getLast?,
          x ≤ folderDuration [scenarioTrack 2, scenarioTrack 1]) :=
  ⟨by norm_num [goodTrack, scenarioTrack],
    folderChapters_sorted_and_bounded [scenarioTrack 2, scenarioTrack 1]
      (by norm_num [goodTrack, scenarioTrack])⟩

/-- Sequential renumbering of a chapter list starting at `n`. -/
def numberFrom (n : Nat) : List (String × ℚ) → List (Nat × String × ℚ)
  | [] => []
  | ch :: rest => (n, ch.1, ch.2) :: numberFrom (n + 1) rest

/-- Division of one emitted chapter's timestamp by the speed factor. -/
def scaleChapter (f : ℚ) (c : Nat × String × ℚ) : Nat × String × ℚ :=
  (c.1, c.2.1, c.2.2 / f)

theorem chapterLoop_eq_numberFrom (subch : Bool) (f : ℚ) (l : List (String × ℚ)) :
    ∀ (n : Nat) (prev : Option String),
      chapterLoop subch f n prev l =
        (numberFrom (n + 1) (filterChapters subch prev l)).map (scaleChapter f) := by
  induction l with
  | nil => intro n prev; simp [chapterLoop, filterChapters, numberFrom]
  | cons ch rest ih =>
    intro n prev
    by_cases h1 : !subch && isSubName ch.1
    · simp [chapterLoop, filterChapters, h1, ih]
    · by_cases h2 : !subch && prev = some ch.1
      · simp [chapterLoop, filterChapters, h1, h2, ih]
      · simp [chapterLoop, filterChapters, h1, h2, ih, numberFrom, scaleChapter]

/-- C6: one and the same factor `speed_float = 1 + speed/100` (of the
clamped speed) links the three time-scaled outputs of `encode`: every
surviving chapter comment carries its merged timestamp divided by that
factor, the `atempo` filter stage is added exactly when the clamped speed
is non-zero and applies exactly that factor, and the progress-monitor
total is the folder duration divided by that factor.  In particular
`speed = 50` gives the factor `3/2`, under which a chapter merged at
1200 s is emitted at 800 s. -/
theorem encodeModel_shares_one_speed_factor :
    (∀ (files : List TrackMeta) (subch : Bool) (speed : Int) (plan : EncodePlan),
        encodeModel files subch speed = .ok plan →
        plan.chapters =
            (numberFrom 1 (filterChapters subch none (folderChapters files))).map
              (scaleChapter (speedFloat speed)) ∧
          plan.atempo = (if clampSpeed speed ≠ 0 then some (speedFloat speed) else none) ∧
          plan.progressTotal = folderDuration files / speedFloat speed) ∧
      speedFloat 50 = 3 / 2 ∧ (1200 : ℚ) / speedFloat 50 = 800 := by
  refine ⟨?_, by norm_num [speedFloat, clampSpeed], by norm_num [speedFloat, clampSpeed]⟩
  intro files subch speed plan h
  rw [encodeModel] at h
  split at h
  · exact absurd h (by simp)
  · obtain rfl : _ = plan := Except.ok.inj h
    exact ⟨chapterLoop_eq_numberFrom subch (speedFloat speed) _ 0 none, rfl, rfl⟩

/-- A track for scenario B: duration 600 s, one chapter `"Late"` merged at
1200 s. -/
def lateChapterTrack : TrackMeta :=
  { title := none, artist := none, genre := none, publisher := none,
    comment := none, album := none, copyright := none,
    track := 1, duration := 600, chapters := [("Late", 1200)] }

/-- C6 witness: at `speed = 50` on `lateChapterTrack`, `encode` emits the
chapter at `1200 / (3/2) = 800` s, the `atempo` stage carries `3/2`, and
the progress total is `600 / (3/2) = 400` s. -/
theorem encodeModel_shares_one_speed_factor_witness :
    encodeModel [lateChapterTrack] false 50 =
        .ok { chapters := [(1, "Late", 800)], atempo := some (3 / 2), progressTotal := 400 } ∧
      (({ chapters := [(1, "Late", 800)], atempo := some (3 / 2),
            progressTotal := 400 } : EncodePlan).chapters =
          (numberFrom 1 (filterChapters false none (folderChapters [lateChapterTrack]))).map
            (scaleChapter (speedFloat 50)) ∧
        ({ chapters := [(1, "Late", 800)], atempo := some (3 / 2),
            progressTotal := 400 } : EncodePlan).atempo =
          (if clampSpeed 50 ≠ 0 then some (speedFloat 50) else none) ∧
        ({ chapters := [(1, "Late", 800)], atempo := some (3 / 2),
            progressTotal := 400 } : EncodePlan).progressTotal =
          folderDuration [lateChapterTrack] / speedFloat 50) := by
  have h : encodeModel [lateChapterTrack] false 50 =
      .ok { chapters := [(1, "Late", 800)], atempo := some (3 / 2), progressTotal := 400 } := by
    simp +decide [encodeModel, aggregate, aggStep, sortTracks, insertTrack, lateChapterTrack,
      chapterLoop, isSubName, startsWithSpace, hasTimestampSuffix, pyIsSpace, speedFloat,
      clampSpeed]
    norm_num
  exact ⟨h, encodeModel_shares_one_speed_factor.1 [lateChapterTrack] false 50 _ h⟩

end Overdrive2Opus
